import Mathlib

/-!
Verification of the reactive-state core of `sveltegame`:
the middleware pipeline (`createGameStoreWithMiddleware.ts`), the scoped
store (`createScopedStore.ts`), the event bus (`EventBus.ts`), and the
modal queue and calendar service (`ModalQueue.ts`).

JavaScript objects are embedded as insertion-ordered association lists
`Obj α := List (String × α)`; `JSON.parse(JSON.stringify(x))` (the
source's `deepClone`) is the identity on such values, and
`JSON.stringify`-equality coincides with structural equality, so clones
are modelled as the value itself and stringify-comparison as decidable
equality.  Hook and callback side effects are modelled by threading an
explicit world value `σ` (or by returning the list of calls made);
exceptions are modelled with `Except`.

The Store Core itself (`createGameStore.ts`) is not among the sources,
only its callers and its tests are; where its behaviour is needed it is
modelled from the spec (section 4.1), as noted on each such definition.
-/

/-- Primitive JSON-style value: number (integers suffice for the states
the claims mention), string, or boolean. -/
inductive Prim where
  | i : Int → Prim
  | s : String → Prim
  | bo : Bool → Prim
deriving DecidableEq, Repr

/-- A value stored at a top-level key: either a primitive or a one-level
nested object of primitives (deep enough for every state the claims
mention). -/
inductive Value where
  | p : Prim → Value
  | o : List (String × Prim) → Value
deriving DecidableEq, Repr

/-- A JavaScript object: insertion-ordered association list from keys to
values of type `α`. -/
abbrev Obj (α : Type) := List (String × α)

/-- Keys of an object, in insertion order (`Object.keys`). -/
def objKeys {α : Type} (o : Obj α) : List String := o.map Prod.fst

/-- Shallow merge, the spread `\x7b ...cur, ...patch \x7d` used by the Store
Core's `patch` and by the scoped store's `patch`: keys of `cur` keep
their position and are overridden by `patch` where present; keys new in
`patch` are appended in `patch` order. -/
def mergeObj {α : Type} (cur patch : Obj α) : Obj α :=
  (cur.map (fun kv => (kv.1, ((patch.lookup kv.1).getD kv.2)))) ++
    patch.filter (fun kv => !(objKeys cur).contains kv.1)

/-- Looking up a key in an object whose entries were rewritten by a
key-preserving function. -/
theorem lookup_mapOver {α β : Type} (f : String → α → β) (l : Obj α) (k : String) :
    (l.map (fun kv => (kv.1, f kv.1 kv.2))).lookup k = (l.lookup k).map (f k) := by
  induction l with
  | nil => simp
  | cons kv t ih =>
    cases hb : (k == kv.1) with
    | true =>
      have : k = kv.1 := eq_of_beq hb
      subst this
      simp only [List.map_cons, List.lookup, hb, Option.map_some']
    | false =>
      simp only [List.map_cons, List.lookup, hb, ih]

/-- Lookup in an append, when the key is found on the left. -/
theorem lookup_append_left {α : Type} (l₁ l₂ : Obj α) (k : String) (v : α)
    (h : l₁.lookup k = some v) : (l₁ ++ l₂).lookup k = some v := by
  induction l₁ with
  | nil => simp at h
  | cons kv t ih =>
    cases hb : (k == kv.1) with
    | true =>
      simp only [List.lookup, hb] at h
      simp only [List.cons_append, List.lookup, hb, h]
    | false =>
      simp only [List.lookup, hb] at h
      simp only [List.cons_append, List.lookup, hb]
      exact ih h

/-- Lookup in an append, when the key is absent on the left. -/
theorem lookup_append_right {α : Type} (l₁ l₂ : Obj α) (k : String)
    (h : l₁.lookup k = none) : (l₁ ++ l₂).lookup k = l₂.lookup k := by
  induction l₁ with
  | nil => simp
  | cons kv t ih =>
    cases hb : (k == kv.1) with
    | true => simp only [List.lookup, hb] at h; exact absurd h (by simp)
    | false =>
      simp only [List.lookup, hb] at h
      simp only [List.cons_append, List.lookup, hb]
      exact ih h

/-- Filtering cannot make an absent key present. -/
theorem lookup_filter_none {α : Type} (l : Obj α) (g : String × α → Bool) (k : String)
    (h : l.lookup k = none) : (l.filter g).lookup k = none := by
  induction l with
  | nil => simp
  | cons kv t ih =>
    cases hb : (k == kv.1) with
    | true => simp only [List.lookup, hb] at h; exact absurd h (by simp)
    | false =>
      simp only [List.lookup, hb] at h
      cases hg : g kv with
      | true => simp only [List.filter, hg]; simp only [List.lookup, hb]; exact ih h
      | false => simp only [List.filter, hg]; exact ih h

/-- A key absent from the patch keeps its previous value under shallow
merge. -/
theorem mergeObj_lookup_of_none {α : Type} (cur patch : Obj α) (k : String)
    (hk : patch.lookup k = none) : (mergeObj cur patch).lookup k = cur.lookup k := by
  unfold mergeObj
  have hmap := lookup_mapOver (fun key v => ((patch.lookup key).getD v)) cur k
  cases hc : cur.lookup k with
  | none =>
    rw [hc] at hmap
    simp only [Option.map_none'] at hmap
    rw [lookup_append_right _ _ _ hmap]
    exact lookup_filter_none _ _ _ hk
  | some v =>
    rw [hc, hk] at hmap
    simp only [Option.map_some', Option.getD_none] at hmap
    exact lookup_append_left _ _ _ _ hmap

/-!
Middleware pipeline, from `createGameStoreWithMiddleware.ts`.

A hook is a function of the explicit world `σ` (modelling whatever side
effects the JavaScript closure performs) returning the new world and
either `Except.error` (the hook threw — caught by the runner) or
`Except.ok` with the hook's returned value.  The source passes
`deepClone`d arguments to every hook; clones are identities here.
-/

/-- A middleware entry (`Middleware<T>` interface): an optional pre-write
hook that may return a replacement patch (`Except.ok none` models a hook
body that returns nothing) and an optional post-write hook whose returned
value, modelled as `Option (Obj α)`, is discarded by the runner. -/
structure Middleware (σ α : Type) where
  name : String
  beforePatch : Option (σ → Obj α → Obj α → σ × Except String (Option (Obj α)))
  afterPatch : Option (σ → Obj α → Obj α → Obj α → σ × Except String (Option (Obj α)))

/-- The `runBeforePatch` helper: fold the pre-write hooks over the patch
in pipeline order; a hook returning `undefined` (here `Except.ok none`)
or throwing (`Except.error`) leaves the current patch unchanged. -/
def runBeforePatch {σ α : Type} (mws : List (Middleware σ α)) (w : σ)
    (state patchArg : Obj α) : σ × Obj α :=
  mws.foldl
    (fun acc mw =>
      match mw.beforePatch with
      | none => acc
      | some f =>
        match f acc.1 state acc.2 with
        | (w', Except.ok none) => (w', acc.2)
        | (w', Except.ok (some p)) => (w', p)
        | (w', Except.error _) => (w', acc.2))
    (w, patchArg)

/-- The `runAfterPatch` helper: run the post-write hooks in pipeline
order for their side effects only; the hook's returned value and any
thrown error are both discarded (`try/catch` plus `void` return). -/
def runAfterPatch {σ α : Type} (mws : List (Middleware σ α)) (w : σ)
    (prevState newState patchArg : Obj α) : σ :=
  mws.foldl
    (fun wAcc mw =>
      match mw.afterPatch with
      | none => wAcc
      | some f => (f wAcc prevState newState patchArg).1)
    w

/-- The wrapped store's `patch`: run the pre-write pipeline on the
partial, apply the result through the Store Core's native `patch`
(shallow merge — modelled from the spec, section 4.1), then run the
post-write pipeline.  Returns the final world and the stored state. -/
def mwPatch {σ α : Type} (mws : List (Middleware σ α)) (w : σ)
    (state partialArg : Obj α) : σ × Obj α :=
  let prevState := state
  let r := runBeforePatch mws w prevState partialArg
  let newState := mergeObj prevState r.2
  (runAfterPatch mws r.1 prevState newState r.2, newState)

/-- The wrapped store's `set`: the full replacement state is fed to the
pre-write pipeline as the patch, and the pipeline's result is installed
wholesale through the Store Core's native `set` (modelled from the spec,
section 4.1: `set` replaces the state and `get` returns a copy). -/
def mwSet {σ α : Type} (mws : List (Middleware σ α)) (w : σ)
    (state newState : Obj α) : σ × Obj α :=
  let prevState := state
  let r := runBeforePatch mws w prevState newState
  (runAfterPatch mws r.1 prevState r.2 r.2, r.2)

/-- The wrapped store's `update`: the updater runs on a clone of the
previous state, and its result then follows the same path as `set`. -/
def mwUpdate {σ α : Type} (mws : List (Middleware σ α)) (w : σ)
    (state : Obj α) (updater : Obj α → Obj α) : σ × Obj α :=
  let prevState := state
  let updatedState := updater prevState
  let r := runBeforePatch mws w prevState updatedState
  (runAfterPatch mws r.1 prevState r.2 r.2, r.2)

/-- Middleware that doubles `count` in the incoming patch (the spec's
`M1`). -/
def mwDouble : Middleware Unit Int :=
  ⟨"M1", some (fun w _s p => (w, Except.ok (some [("count", 2 * ((p.lookup "count").getD 0))]))),
    none⟩

/-- Middleware that adds one to `count` in the incoming patch (the
spec's `M2`). -/
def mwAddOne : Middleware Unit Int :=
  ⟨"M2", some (fun w _s p => (w, Except.ok (some [("count", ((p.lookup "count").getD 0) + 1)]))),
    none⟩

/-- Middleware that records the order of its hook invocations in the
world (a list of log entries). -/
def mwLogger (n : String) : Middleware (List String) Int :=
  ⟨n, some (fun w _s _p => (w ++ [n ++ ".before"], Except.ok none)),
    some (fun w _prev _new _p => (w ++ [n ++ ".after"], Except.ok none))⟩

/-- Middleware whose pre-write hook returns nothing. -/
def mwInert : Middleware Unit Int :=
  ⟨"inert", some (fun w _s _p => (w, Except.ok none)), none⟩

/-- C1: pre-write hooks run in pipeline order and are sequentially
chained — splitting the pipeline shows each suffix receives the patch as
transformed by the prefix; a hook returning nothing leaves the patch
unchanged; post-write hooks run in the same pipeline order after the
write (witnessed by the invocation log `M1.before, M2.before, M1.after,
M2.after`); and patching `count = 5` through `M1` (doubling) then `M2`
(adding one) stores `count = 11`. -/
theorem mw_pipeline_order_and_chaining {σ α : Type}
    (m1 m2 : List (Middleware σ α)) (mw : Middleware σ α)
    (f : σ → Obj α → Obj α → σ × Except String (Option (Obj α)))
    (w w' : σ) (s p : Obj α)
    (hf : mw.beforePatch = some f) (hnone : f w s p = (w', Except.ok none)) :
    (∀ (w₀ : σ) (s₀ p₀ : Obj α),
      runBeforePatch (m1 ++ m2) w₀ s₀ p₀ =
        runBeforePatch m2 (runBeforePatch m1 w₀ s₀ p₀).1 s₀ (runBeforePatch m1 w₀ s₀ p₀).2)
    ∧ runBeforePatch [mw] w s p = (w', p)
    ∧ (∀ (wa : σ) (prev nw pa : Obj α),
      runAfterPatch (m1 ++ m2) wa prev nw pa =
        runAfterPatch m2 (runAfterPatch m1 wa prev nw pa) prev nw pa)
    ∧ (mwPatch [mwDouble, mwAddOne] () [("count", (0 : Int))] [("count", 5)]).2.lookup "count"
        = some 11
    ∧ (mwPatch [mwLogger "M1", mwLogger "M2"] []
        [("count", (0 : Int))] [("count", 5)]).1
        = ["M1.before", "M2.before", "M1.after", "M2.after"] := by
  refine ⟨?_, ?_, ?_, ?_, ?_⟩
  · intro w₀ s₀ p₀
    simp [runBeforePatch, List.foldl_append]
  · simp [runBeforePatch, hf, hnone]
  · intro wa prev nw pa
    simp [runAfterPatch, List.foldl_append]
  · rfl
  · rfl

/-- C1 witness: the theorem applied to the concrete pipeline
`[mwDouble] ++ [mwAddOne]` and the inert hook. -/
theorem mw_pipeline_order_and_chaining_witness :
    runBeforePatch [mwInert] () [("a", (1 : Int))] [("b", 2)] = ((), [("b", 2)]) :=
  (mw_pipeline_order_and_chaining [mwDouble] [mwAddOne] mwInert
    (fun w _s _p => (w, Except.ok none)) () () [("a", (1 : Int))] [("b", 2)]
    rfl rfl).2.1

/-- Middleware whose pre-write hook replaces any patch by the subset
patch `\x7b a: 5 \x7d`. -/
def mwSubsetHook : Middleware Unit Int :=
  ⟨"subset", some (fun w _s _p => (w, Except.ok (some [("a", 5)]))), none⟩

/-- C3 counterexample: on the `set` path the pipeline's resulting patch
is applied through the Store Core's native `set` (wholesale), not its
native `patch`; with a hook returning the subset patch `\x7b a: 5 \x7d`,
calling `set(\x7b a: 3, b: 4 \x7d)` on state `\x7b a: 1, b: 2 \x7d`
stores exactly `\x7b a: 5 \x7d` — the omitted key `b` does not retain
its previous value `2`, it is dropped. -/
theorem mw_set_drops_omitted_keys :
    (mwSet [mwSubsetHook] () [("a", (1 : Int)), ("b", 2)] [("a", 3), ("b", 4)]).2 = [("a", 5)]
    ∧ (mwSet [mwSubsetHook] () [("a", (1 : Int)), ("b", 2)] [("a", 3), ("b", 4)]).2.lookup "b"
        ≠ some 2 := by
  refine ⟨rfl, ?_⟩
  decide

/-- C3 (amended): `set`/`update` are normalized to a full-state patch
before the pipeline runs, but the pipeline's result is applied through
the Store Core's native `set` (wholesale replacement), while only the
`patch` path applies it via native `patch`; consequently keys omitted by
a subset-returning hook retain their previous values on the `patch`
path, whereas on the `set`/`update` paths the stored state is exactly
the pipeline's output. -/
theorem mw_write_path_application {σ α : Type}
    (mws : List (Middleware σ α)) (w : σ) (state partialArg newState : Obj α)
    (updater : Obj α → Obj α) (k : String)
    (hk : (runBeforePatch mws w state partialArg).2.lookup k = none) :
    (mwPatch mws w state partialArg).2.lookup k = state.lookup k
    ∧ (mwSet mws w state newState).2 = (runBeforePatch mws w state newState).2
    ∧ (mwUpdate mws w state updater).2 = (runBeforePatch mws w state (updater state)).2 := by
  refine ⟨?_, rfl, rfl⟩
  exact mergeObj_lookup_of_none _ _ _ hk

/-- C3 witness: on the `patch` path, a key the pipeline's final patch
omits (`score`) keeps its previous value. -/
theorem mw_write_path_application_witness :
    (mwPatch [mwDouble] () [("count", (0 : Int)), ("score", 7)] [("count", 5)]).2.lookup "score"
      = some 7 :=
  (mw_write_path_application [mwDouble] () [("count", (0 : Int)), ("score", 7)]
    [("count", 5)] [] id "score" (by decide)).1

/-- Strip every post-write hook from a pipeline, keeping the pre-write
hooks. -/
def stripAfter {σ α : Type} (mws : List (Middleware σ α)) : List (Middleware σ α) :=
  mws.map (fun m => { name := m.name, beforePatch := m.beforePatch, afterPatch := none })

/-- Post-write middleware that records the arguments it receives in the
world. -/
def mwAfterRecorder : Middleware (List (Obj Int × Obj Int × Obj Int)) Int :=
  ⟨"recorder", none, some (fun w prev nw p => (w ++ [(prev, nw, p)], Except.ok none))⟩

/-- Post-write middleware that tries to smuggle a replacement patch out
through its return value. -/
def mwAfterReturner : Middleware Unit Int :=
  ⟨"returner", none, some (fun w _prev _nw _p => (w, Except.ok (some [("count", 999)])))⟩

/-- C6: the stored state produced by a write is the same whether or not
the pipeline's post-write hooks run at all (their return values are
discarded and, receiving only copies, they cannot reach the stored
state); concretely, a post-write hook receives exactly `(prevState,
newState, appliedPatch)`, and a hook returning a patch-shaped value
changes nothing. -/
theorem mw_after_hooks_cannot_change_state {σ α : Type}
    (mws : List (Middleware σ α)) (w : σ) (state partialArg newState : Obj α) :
    (mwPatch mws w state partialArg).2 = (mwPatch (stripAfter mws) w state partialArg).2
    ∧ (mwSet mws w state newState).2 = (mwSet (stripAfter mws) w state newState).2
    ∧ (mwPatch [mwAfterRecorder] [] [("count", (0 : Int))] [("count", 5)]).1
        = [([("count", 0)], [("count", 5)], [("count", 5)])]
    ∧ (mwPatch [mwAfterReturner] () [("count", (0 : Int))] [("count", 5)]).2
        = [("count", 5)] := by
  refine ⟨?_, ?_, rfl, rfl⟩
  · simp [mwPatch, runBeforePatch, stripAfter, List.foldl_map]
  · simp [mwSet, runBeforePatch, stripAfter, List.foldl_map]

/-!
Scoped store, from `createScopedStore.ts`.

The construction wires one subscription into the parent store; the
parent's own `set`/`patch`/notification discipline is the Store Core's
(modelled from the spec, section 4.1).  A notification pass is recorded
as data: which state the whole-state subscribers were handed (if any)
and which per-key notifications were emitted, in order.
-/

/-- First-occurrence deduplication, the insertion order of
`new Set([...keys])`. -/
def dedupFirst (l : List String) : List String :=
  l.foldl (fun acc k => if acc.contains k then acc else acc ++ [k]) []

/-- The `getChangedKeys` helper: all top-level keys of either state, in
`Set` insertion order, whose values differ (`JSON.stringify`
inequality, i.e. structural inequality; an absent key reads as
`undefined`, here `none`). -/
def getChangedKeys {β : Type} [DecidableEq β] (oldS newS : Obj β) : List String :=
  (dedupFirst (objKeys oldS ++ objKeys newS)).filter
    (fun k => decide (oldS.lookup k ≠ newS.lookup k))

/-- The select/update pair handed to `createScopedStore`
(`ScopedStoreOptions`). -/
structure Lens (α β : Type) where
  select : Obj α → Obj β
  update : Obj α → Obj β → Obj α

/-- The notifications one parent-store notification causes on the scoped
store: the state handed to every whole-state subscriber (`none` when
they were not notified) and the per-key notifications, in order. -/
structure ScopedNotifs (β : Type) where
  whole : Option (Obj β)
  keyed : List (String × Option β)
deriving DecidableEq, Repr

/-- The handler `createScopedStore` subscribes to the parent (lines
115–124): recompute the projection, diff it against the tracked
`lastScopedState`, and only on a non-empty diff update the tracked state,
notify the whole-state subscribers, and notify the per-key subscribers of
exactly the changed keys (with the new value of each key).  Returns the
new tracked state and the emitted notifications. -/
def scopedHandler {α β : Type} [DecidableEq β] (lens : Lens α β)
    (lastScoped : Obj β) (parentState : Obj α) : Obj β × ScopedNotifs β :=
  let currentScoped := lens.select parentState
  let changedKeys := getChangedKeys lastScoped currentScoped
  if changedKeys.length > 0 then
    (currentScoped, ⟨some currentScoped, changedKeys.map (fun k => (k, currentScoped.lookup k))⟩)
  else
    (lastScoped, ⟨none, []⟩)

/-- One parent store plus one scoped store derived from it: the parent's
current state and the scoped store's `lastScopedState` tracking value. -/
structure ScopedSys (α β : Type) where
  parent : Obj α
  lastScoped : Obj β
deriving DecidableEq, Repr

/-- Install a new parent state and run the parent's notification, which
reaches the scoped store through its parent subscription.  The parent's
`set`-then-notify behaviour is the Store Core's, modelled from the spec
(section 4.1). -/
def sysParentWrite {α β : Type} [DecidableEq β] (lens : Lens α β)
    (sys : ScopedSys α β) (newParent : Obj α) : ScopedSys α β × ScopedNotifs β :=
  let r := scopedHandler lens sys.lastScoped newParent
  (⟨newParent, r.1⟩, r.2)

/-- A `patch` on the parent store: shallow merge (the Store Core's
native `patch`, modelled from the spec, section 4.1), then notify. -/
def sysParentPatch {α β : Type} [DecidableEq β] (lens : Lens α β)
    (sys : ScopedSys α β) (partialArg : Obj α) : ScopedSys α β × ScopedNotifs β :=
  sysParentWrite lens sys (mergeObj sys.parent partialArg)

/-- A `set` on the scoped store: merge the new scoped value into the
parent via the lens and write the result through the parent's `set`
(there is no separate direct-notify path). -/
def sysScopedSet {α β : Type} [DecidableEq β] (lens : Lens α β)
    (sys : ScopedSys α β) (newScoped : Obj β) : ScopedSys α β × ScopedNotifs β :=
  sysParentWrite lens sys (lens.update sys.parent newScoped)

/-- A `patch` on the scoped store: shallow-merge the partial into the
current projection, then follow the scoped `set` path. -/
def sysScopedPatch {α β : Type} [DecidableEq β] (lens : Lens α β)
    (sys : ScopedSys α β) (partialArg : Obj β) : ScopedSys α β × ScopedNotifs β :=
  sysScopedSet lens sys (mergeObj (lens.select sys.parent) partialArg)

/-- The lens of the spec's example: scope over the `player` slice of the
parent state, merged back with the spread `\x7b ...state, player \x7d`. -/
def playerLens : Lens Value Prim where
  select := fun p =>
    match p.lookup "player" with
    | some (Value.o o) => o
    | _ => []
  update := fun p newScoped => mergeObj p [("player", Value.o newScoped)]

/-- The example parent state: a `player` object and a top-level
`score`. -/
def parentState0 : Obj Value :=
  [("player", Value.o [("name", Prim.s "Hero"), ("health", Prim.i 100)]),
    ("score", Value.p (Prim.i 0))]

/-- The example system right after construction: `lastScopedState` is
the current projection. -/
def scopedSys0 : ScopedSys Value Prim :=
  ⟨parentState0, playerLens.select parentState0⟩

/-- The example system after the parent-side `patch(\x7b score: 100 \x7d)`. -/
def scopedSys1 : ScopedSys Value Prim :=
  (sysParentPatch playerLens scopedSys0 [("score", Value.p (Prim.i 100))]).1

/-- C2: on a parent notification the scoped store's whole-state
subscribers are notified iff some top-level key of the new projection
differs structurally from the tracked scoped state, and the per-key
notifications are exactly the changed keys with their new values;
concretely, with a scope over `player`, patching `score` on the parent
emits no scoped notification, while patching `health` through the scoped
store notifies (whole-state, and exactly the `health` key), updates
`parent.player.health`, and leaves `parent.score` unchanged. -/
theorem scoped_change_detection_and_sync {α β : Type} [DecidableEq β]
    (lens : Lens α β) (sys : ScopedSys α β) (newParent : Obj α) :
    (((sysParentWrite lens sys newParent).2.whole).isSome
        ↔ getChangedKeys sys.lastScoped (lens.select newParent) ≠ [])
    ∧ (sysParentWrite lens sys newParent).2.keyed
        = (getChangedKeys sys.lastScoped (lens.select newParent)).map
            (fun k => (k, (lens.select newParent).lookup k))
    ∧ (sysParentPatch playerLens scopedSys0 [("score", Value.p (Prim.i 100))]).2
        = ⟨none, []⟩
    ∧ (sysScopedPatch playerLens scopedSys1 [("health", Prim.i 50)]).2
        = ⟨some [("name", Prim.s "Hero"), ("health", Prim.i 50)],
            [("health", some (Prim.i 50))]⟩
    ∧ (sysScopedPatch playerLens scopedSys1 [("health", Prim.i 50)]).1.parent.lookup "player"
        = some (Value.o [("name", Prim.s "Hero"), ("health", Prim.i 50)])
    ∧ (sysScopedPatch playerLens scopedSys1 [("health", Prim.i 50)]).1.parent.lookup "score"
        = some (Value.p (Prim.i 100)) := by
  refine ⟨?_, ?_, by decide, by decide, by decide, by decide⟩
  · unfold sysParentWrite scopedHandler
    cases h : getChangedKeys sys.lastScoped (lens.select newParent) with
    | nil => simp [h]
    | cons a t => simp [h]
  · unfold sysParentWrite scopedHandler
    cases h : getChangedKeys sys.lastScoped (lens.select newParent) with
    | nil => simp [h]
    | cons a t => simp [h]

/-!
Notification passes with reentrant subscribers, for the scoped store's
`notify` (`createScopedStore.ts` lines 80–83), the modal queue's
`notify` (`ModalQueue.ts` lines 77–86) and the event bus's `emit`
(`EventBus.ts` lines 84–98).

Subscribers are identified by numbers; what a callback does when invoked
is a behaviour: which subscribers it unsubscribes, which (inert) new
subscribers it registers, and whether it then throws.  Both `notify`
implementations run `subscribers.forEach(...)` on the **live**
`Set`, whose JavaScript iteration semantics is: entries are visited in
insertion order, an entry deleted before its turn is skipped, and an
entry added during iteration is visited in the same pass.  `emit`
instead iterates a snapshot array taken up front.
-/

/-- What a subscriber callback does when invoked. -/
structure CbBeh where
  removes : List Nat
  adds : List Nat
  throws : Bool
deriving DecidableEq, Repr

/-- A callback that only observes. -/
def inertBeh : CbBeh := ⟨[], [], false⟩

/-- Outcome of one notification pass: the subscriber set afterwards, the
callbacks invoked in order, and whether an uncaught exception escaped
the pass. -/
structure NotifyOutcome where
  subsAfter : List Nat
  calls : List Nat
  thrown : Bool
deriving DecidableEq, Repr

/-- `Set.prototype.forEach` over the live subscriber set: `pending` is
the not-yet-visited part in insertion order, `cur` the current
membership.  Each visited callback's deletions take effect on the
not-yet-visited part and its (inert) additions are appended and visited
in the same pass; when `catchErr` is false (the scoped store's `notify`
has no `try/catch`) a throwing callback aborts the pass and the
exception escapes.  `fuel` bounds the pass (additions could otherwise
prolong it indefinitely, as in JavaScript). -/
def liveNotify (catchErr : Bool) (beh : Nat → CbBeh) :
    Nat → List Nat → List Nat → List Nat → NotifyOutcome
  | 0, _pending, cur, calls => ⟨cur, calls, false⟩
  | _fuel + 1, [], cur, calls => ⟨cur, calls, false⟩
  | fuel + 1, h :: rest, cur, calls =>
    let b := beh h
    let calls' := calls ++ [h]
    let curMid := cur.filter (fun x => !(b.removes.contains x))
    let added := b.adds.filter (fun x => !(curMid.contains x))
    let cur' := curMid ++ added
    let rest' := rest.filter (fun x => !(b.removes.contains x)) ++ added
    if b.throws && !catchErr then ⟨cur', calls', true⟩
    else liveNotify catchErr beh fuel rest' cur' calls'

/-- The scoped store's `notify` (lines 80–83): live-set iteration, no
`try/catch` around the callback. -/
def scopedNotifyPass (fuel : Nat) (beh : Nat → CbBeh) (subs : List Nat) : NotifyOutcome :=
  liveNotify false beh fuel subs subs []

/-- The modal queue's `notify` (lines 77–86): live-set iteration with a
per-callback `try/catch`. -/
def modalNotifyPass (fuel : Nat) (beh : Nat → CbBeh) (subs : List Nat) : NotifyOutcome :=
  liveNotify true beh fuel subs subs []

/-- The event bus's `emit` (lines 84–98): iterate a snapshot array of
the listener set taken before the first call, with a per-callback
`try/catch`; callbacks may still mutate the live set for later emits.
Returns the listener set afterwards and the calls made. -/
def emitPass (beh : Nat → CbBeh) (listeners : List Nat) : List Nat × List Nat :=
  listeners.foldl
    (fun acc cb =>
      let b := beh cb
      let curMid := acc.1.filter (fun x => !(b.removes.contains x))
      let added := b.adds.filter (fun x => !(curMid.contains x))
      (curMid ++ added, acc.2 ++ [cb]))
    (listeners, [])

/-- Modelled from the spec: the Store Core's notification pass
(`createGameStore.ts` is not among the sources; spec sections 4.1 and 5
require notifying "over a snapshot of subscribers"), the same snapshot
discipline as the event bus's `emit`. -/
def coreNotifyPass (beh : Nat → CbBeh) (subs : List Nat) : List Nat × List Nat :=
  emitPass beh subs

/-- Callback 1 unsubscribes callback 2; everyone else observes. -/
def behRemoveSecond : Nat → CbBeh := fun i => if i = 1 then ⟨[2], [], false⟩ else inertBeh

/-- Callback 1 registers a new callback 3; everyone else observes. -/
def behAddThird : Nat → CbBeh := fun i => if i = 1 then ⟨[], [3], false⟩ else inertBeh

/-- Callback 1 throws; everyone else observes. -/
def behThrowFirst : Nat → CbBeh := fun i => if i = 1 then ⟨[], [], true⟩ else inertBeh

/-- Callback 2 throws; everyone else observes. -/
def behThrowSecond : Nat → CbBeh := fun i => if i = 2 then ⟨[], [], true⟩ else inertBeh

/-- C4 counterexample: the modal queue's notification pass iterates the
live subscriber set, not a snapshot — with subscribers `[1, 2]` where
callback 1 unsubscribes callback 2, the pass invokes only `[1]` (the
not-yet-called subscriber 2 is skipped), and with callback 1 instead
registering a new callback 3, the pass invokes `[1, 2, 3]` (the newly
added subscriber runs in the same pass). -/
theorem modal_notify_not_snapshot :
    (modalNotifyPass 10 behRemoveSecond [1, 2]).calls = [1]
    ∧ (modalNotifyPass 10 behRemoveSecond [1, 2]).calls ≠ [1, 2]
    ∧ (modalNotifyPass 10 behAddThird [1, 2]).calls = [1, 2, 3]
    ∧ (modalNotifyPass 10 behAddThird [1, 2]).calls ≠ [1, 2] := by
  refine ⟨by decide, by decide, by decide, by decide⟩

/-- The calls made by the snapshot pass are an invariant of the fold:
whatever the running membership, the snapshot entries are all called in
order. -/
theorem emitPass_foldl_calls (beh : Nat → CbBeh) (snapshot : List Nat)
    (cur : List Nat) (calls : List Nat) :
    (snapshot.foldl
      (fun acc cb =>
        let b := beh cb
        let curMid := acc.1.filter (fun x => !(b.removes.contains x))
        let added := b.adds.filter (fun x => !(curMid.contains x))
        (curMid ++ added, acc.2 ++ [cb]))
      (cur, calls)).2 = calls ++ snapshot := by
  induction snapshot generalizing cur calls with
  | nil => simp
  | cons cb rest ih =>
    simp only [List.foldl_cons]
    rw [ih]
    simp

/-- C4 (amended): the event bus's `emit` (and, per the spec, the Store
Core's notification) invokes exactly the emit-time snapshot of
listeners, in order, whatever the callbacks unsubscribe or subscribe
mid-pass; the scoped store's and the modal queue's `notify` instead
iterate the live set — no pass crashes, but a not-yet-called subscriber
removed mid-pass is skipped and a subscriber added mid-pass is invoked
in the same pass (shown at the concrete reentrant callbacks). -/
theorem notify_snapshot_vs_live (beh : Nat → CbBeh) (listeners : List Nat) :
    (emitPass beh listeners).2 = listeners
    ∧ (coreNotifyPass beh listeners).2 = listeners
    ∧ modalNotifyPass 10 behRemoveSecond [1, 2] = ⟨[1], [1], false⟩
    ∧ modalNotifyPass 10 behAddThird [1, 2] = ⟨[1, 2, 3], [1, 2, 3], false⟩
    ∧ scopedNotifyPass 10 behRemoveSecond [1, 2] = ⟨[1], [1], false⟩
    ∧ scopedNotifyPass 10 behAddThird [1, 2] = ⟨[1, 2, 3], [1, 2, 3], false⟩ := by
  refine ⟨?_, ?_, by decide, by decide, by decide, by decide⟩
  · exact emitPass_foldl_calls beh listeners listeners []
  · exact emitPass_foldl_calls beh listeners listeners []

/-- C5 counterexample: the scoped store's `notify` has no `try/catch` —
with subscribers `[1, 2]` where callback 1 throws, the exception escapes
the pass (`thrown = true`, propagating to whoever triggered the parent
notification) and the sibling subscriber 2 is never invoked. -/
theorem scoped_subscriber_throw_aborts_pass :
    (scopedNotifyPass 10 behThrowFirst [1, 2]).thrown = true
    ∧ (scopedNotifyPass 10 behThrowFirst [1, 2]).calls = [1]
    ∧ (scopedNotifyPass 10 behThrowFirst [1, 2]).calls ≠ [1, 2] := by
  refine ⟨by decide, by decide, by decide⟩

/-!
Modal queue, from `ModalQueue.ts` (`createModalQueue`).

An item carries its identifier, whether it has an `onClose` callback,
and whether that callback throws when invoked (`safeOnClose` catches
either way).  An operation's outcome is recorded as data: the queue
afterwards, the `onClose` invocations made (identifier and the exact
result value passed), and the subscriber notifications (subscriber and
the post-operation snapshot of item identifiers it receives).
Subscribers here are the plain observers of `notify`; reentrant
subscriber behaviour is covered by `modalNotifyPass` above.
-/

/-- A queue item (`ModalQueueItem`): identifier, presence of an
`onClose` callback, and whether that callback throws. -/
structure MItem where
  id : String
  hasOnClose : Bool
  closeThrows : Bool
deriving DecidableEq, Repr

/-- Outcome of one queue operation. -/
structure ModalOpResult where
  queue : List MItem
  closeCalls : List (String × Option Prim)
  notified : List (Nat × List String)
deriving DecidableEq, Repr

/-- `push(item)`: append to the tail, then notify every subscriber with
the post-operation snapshot. -/
def modalPush (q : List MItem) (item : MItem) (subs : List Nat) : ModalOpResult :=
  let q' := q ++ [item]
  ⟨q', [], subs.map (fun i => (i, q'.map MItem.id))⟩

/-- `pop(result?)`: `shift()` the head; if there was one, `safeOnClose`
invokes its `onClose` (when present) with exactly `result`, catching any
throw; then notify regardless.  On an empty queue nothing is shifted and
no callback runs, but subscribers are still notified. -/
def modalPop (q : List MItem) (result : Option Prim) (subs : List Nat) : ModalOpResult :=
  match q with
  | [] => ⟨[], [], subs.map (fun i => (i, []))⟩
  | item :: rest =>
    ⟨rest, if item.hasOnClose then [(item.id, result)] else [],
      subs.map (fun i => (i, rest.map MItem.id))⟩

/-- `getCurrent()`: the head of the queue, or `null`. -/
def modalGetCurrent (q : List MItem) : Option MItem := q.head?

/-- The spec's example items `A`, `B`, `C`; `A` carries an `onClose`
callback. -/
def itemA : MItem := ⟨"A", true, false⟩

/-- Example item `B` (no callback). -/
def itemB : MItem := ⟨"B", false, false⟩

/-- Example item `C` (no callback). -/
def itemC : MItem := ⟨"C", false, false⟩

/-- The queue after pushing `A`, `B`, `C` onto an empty queue. -/
def queueABC : List MItem :=
  (modalPush (modalPush (modalPush [] itemA []).queue itemB []).queue itemC []).queue

/-- An item whose `onClose` callback throws. -/
def itemThrowing : MItem := ⟨"T", true, true⟩

/-- A middleware pre-write hook that always throws. -/
def mwThrower : Middleware Unit Int :=
  ⟨"thrower", some (fun w _s _p => (w, Except.error "boom")), none⟩

/-- C8: `pop(result)` is strict FIFO — it removes the head when one
exists, invokes that item's `onClose` (exactly when present) with
exactly `result`, and notifies every subscriber with the post-operation
snapshot whether or not a callback existed; after pushing `A, B, C` and
popping once, the current item is `B` and `A`'s `onClose` was invoked
with exactly the result passed to `pop`. -/
theorem modal_pop_fifo (item : MItem) (rest : List MItem) (r : Option Prim)
    (subs : List Nat) :
    (modalPop (item :: rest) r subs).queue = rest
    ∧ (modalPop (item :: rest) r subs).closeCalls
        = (if item.hasOnClose then [(item.id, r)] else [])
    ∧ (modalPop (item :: rest) r subs).notified = subs.map (fun i => (i, rest.map MItem.id))
    ∧ modalGetCurrent (modalPop queueABC r subs).queue = some itemB
    ∧ (modalPop queueABC r subs).closeCalls = [("A", r)] := by
  refine ⟨rfl, rfl, rfl, rfl, rfl⟩

/-- C10: popping an empty queue invokes no `onClose`, leaves the queue
empty, and still notifies every subscriber exactly once, in
registration order, with the empty post-operation snapshot. -/
theorem modal_pop_empty_queue (r : Option Prim) (subs : List Nat) :
    (modalPop [] r subs).queue = []
    ∧ (modalPop [] r subs).closeCalls = []
    ∧ (modalPop [] r subs).notified = subs.map (fun i => (i, [])) := by
  refine ⟨rfl, rfl, rfl⟩

/-- C5 (amended): callback errors are caught and isolated for event-bus
listeners, Store Core subscribers (per the spec model), modal `onClose`
callbacks, modal-queue subscribers, and middleware hooks — a throwing
pre-write hook is skipped and the pipeline continues with the patch as
of the last successful hook — but **not** for the scoped store's
subscribers, where a throw escapes the pass and stops the remaining
sibling subscribers. -/
theorem callback_error_isolation_amended {σ α : Type}
    (mw : Middleware σ α) (f : σ → Obj α → Obj α → σ × Except String (Option (Obj α)))
    (w w' : σ) (s p : Obj α) (e : String)
    (hf : mw.beforePatch = some f) (hthrow : f w s p = (w', Except.error e)) :
    (emitPass behThrowSecond [1, 2, 3]).2 = [1, 2, 3]
    ∧ (coreNotifyPass behThrowSecond [1, 2, 3]).2 = [1, 2, 3]
    ∧ modalPop [itemThrowing] (some (Prim.i 7)) [1, 2]
        = ⟨[], [("T", some (Prim.i 7))], [(1, []), (2, [])]⟩
    ∧ modalNotifyPass 10 behThrowFirst [1, 2] = ⟨[1, 2], [1, 2], false⟩
    ∧ runBeforePatch [mw] w s p = (w', p)
    ∧ (mwPatch [mwDouble, mwThrower, mwAddOne] () [("count", (0 : Int))]
        [("count", 5)]).2.lookup "count" = some 11
    ∧ (scopedNotifyPass 10 behThrowFirst [1, 2]).thrown = true
    ∧ (scopedNotifyPass 10 behThrowFirst [1, 2]).calls = [1] := by
  refine ⟨by decide, by decide, by decide, by decide, ?_, by decide, by decide, by decide⟩
  simp [runBeforePatch, hf, hthrow]

/-- C5 witness: the amended theorem applied to the always-throwing
middleware hook — its patch passes through unchanged. -/
theorem callback_error_isolation_amended_witness :
    runBeforePatch [mwThrower] () [("a", (1 : Int))] [("b", 2)] = ((), [("b", 2)]) :=
  (callback_error_isolation_amended mwThrower
    (fun w _s _p => (w, Except.error "boom")) () () [("a", (1 : Int))] [("b", 2)] "boom"
    rfl rfl).2.2.2.2.1

/-!
Event bus `once`, from `EventBus.ts`.

For `once` semantics the listeners of one event are modelled with their
identity, whether they are a `once` wrapper, and whether the wrapped
callback re-enters `emit` on the same event (with some other data).
`emit` iterates a snapshot of the current listener set and invokes every
snapshot member; a `once` wrapper calls `off` on itself **before**
invoking the wrapped callback.  `fuel` bounds the re-entrant `emit`
depth. -/

/-- A registered listener for one event: its identity, whether it is the
wrapper installed by `once`, and the data its callback re-emits on the
same event when invoked (`none`: no re-entrant emit). -/
structure BListener (δ : Type) where
  id : Nat
  isOnce : Bool
  reemit : Option δ

/-- `off`: remove a specific callback from the listener set (no-op when
absent). -/
def busOff {δ : Type} (bus : List (BListener δ)) (i : Nat) : List (BListener δ) :=
  bus.filter (fun l => l.id != i)

/-- `emit(event, data)`: snapshot the current listeners and invoke each
snapshot member in registration order with `data`; a `once` wrapper
first `off`s itself, then runs the wrapped callback, which may re-enter
`emit` (against the then-current listener set).  Returns the listener
set afterwards and every callback invocation `(listener, data)` in
order. -/
def busEmit {δ : Type} : Nat → List (BListener δ) → δ → List (BListener δ) × List (Nat × δ)
  | 0, bus, _d => (bus, [])
  | fuel + 1, bus, d =>
    bus.foldl
      (fun acc l =>
        let cur1 := if l.isOnce then busOff acc.1 l.id else acc.1
        let calls1 := acc.2 ++ [(l.id, d)]
        match l.reemit with
        | none => (cur1, calls1)
        | some d2 =>
          let r := busEmit fuel cur1 d2
          (r.1, calls1 ++ r.2))
      (bus, [])

/-- C7: a `once` subscription fires at most once — two sequential emits
invoke the wrapped callback exactly once, with the first emit's data,
and leave it unregistered; the auto-unsubscribe happens before the
callback runs, so a callback that re-enters `emit` cannot re-trigger
itself; and the returned unsubscribe handle, called before the event
ever fires, prevents the callback from ever running. -/
theorem bus_once_semantics {δ : Type} (d1 d2 : δ) :
    (busEmit 2 [BListener.mk 1 true none] d1).2 = [(1, d1)]
    ∧ (busEmit 2 [BListener.mk 1 true none] d1).1 = []
    ∧ (busEmit 2 (busEmit 2 [BListener.mk 1 true none] d1).1 d2).2 = []
    ∧ (busEmit 3 [BListener.mk 1 true (some d2)] d1).2 = [(1, d1)]
    ∧ (busEmit 2 (busOff [BListener.mk 1 true none] 1) d1).2 = [] := by
  refine ⟨rfl, rfl, rfl, rfl, rfl⟩

/-!
Calendar service, from `ModalQueue.ts` (`createCalendarService`).

Day arithmetic on the clamped day is carried out on natural numbers
(after `normalizeDay` every intermediate is non-negative, so
`Math.floor` of a quotient is natural division and `%` is natural
modulo); `getSeasonProgress` is exact rational arithmetic;
`seasons[...]` indexing is `List.get?` (out-of-range indexing yields
`undefined`, never a throw). -/

/-- Calendar configuration; the constructor rejects `seasons = []` and
`daysPerSeason ≤ 0`, so those validity facts appear as hypotheses. -/
structure CalendarConfig where
  daysPerSeason : Nat
  seasons : List String
  startDayOfWeek : Nat
deriving DecidableEq, Repr

/-- `normalizeDay`: treat `day ≤ 0` as day 1. -/
def normalizeDay (day : Int) : Int := max 1 day

/-- The 0-based day index of the normalized day. -/
def dayIndex0 (day : Int) : Nat := (normalizeDay day - 1).toNat

/-- `getSeasonIndex`. -/
def getSeasonIndex (cfg : CalendarConfig) (day : Int) : Nat :=
  (dayIndex0 day % (cfg.daysPerSeason * cfg.seasons.length)) / cfg.daysPerSeason

/-- `getSeason`: index into the season names. -/
def getSeason (cfg : CalendarConfig) (day : Int) : Option String :=
  cfg.seasons.get? (getSeasonIndex cfg day)

/-- `getDayInSeason` (1-based). -/
def getDayInSeason (cfg : CalendarConfig) (day : Int) : Nat :=
  (dayIndex0 day % cfg.daysPerSeason) + 1

/-- `getYear` (1-based). -/
def getYear (cfg : CalendarConfig) (day : Int) : Nat :=
  dayIndex0 day / (cfg.daysPerSeason * cfg.seasons.length) + 1

/-- `getSeasonProgress`: 0 at the start of a season, approaching 1 at
its end; a single-day season reports 0. -/
def getSeasonProgress (cfg : CalendarConfig) (day : Int) : ℚ :=
  if cfg.daysPerSeason = 1 then 0
  else ((getDayInSeason cfg day : ℚ) - 1) / ((cfg.daysPerSeason : ℚ) - 1)

/-- `getDayOfWeek`: day 1 falls on `startDayOfWeek`, then cycles 0–6. -/
def getDayOfWeek (cfg : CalendarConfig) (day : Int) : Nat :=
  (cfg.startDayOfWeek + dayIndex0 day) % 7

/-- Clamping: every non-positive day normalizes to day 1. -/
theorem normalizeDay_nonpos (day : Int) (h : day ≤ 0) : normalizeDay day = normalizeDay 1 := by
  unfold normalizeDay
  omega

/-- C9: for every valid configuration and every day ≤ 0, each of the six
calendar queries returns exactly its value at day 1 (the clamping
policy), and the season lookup succeeds (none of the queries can fail:
they are total, and the one list indexing is in range). -/
theorem calendar_clamps_nonpositive_days (cfg : CalendarConfig) (day : Int)
    (hday : day ≤ 0) (_hdps : 0 < cfg.daysPerSeason) (hs : cfg.seasons ≠ []) :
    getSeason cfg day = getSeason cfg 1
    ∧ (getSeason cfg day).isSome = true
    ∧ getSeasonIndex cfg day = getSeasonIndex cfg 1
    ∧ getDayInSeason cfg day = getDayInSeason cfg 1
    ∧ getYear cfg day = getYear cfg 1
    ∧ getSeasonProgress cfg day = getSeasonProgress cfg 1
    ∧ getDayOfWeek cfg day = getDayOfWeek cfg 1 := by
  have hnorm : dayIndex0 day = dayIndex0 1 := by
    unfold dayIndex0
    rw [normalizeDay_nonpos day hday]
  have hzero : dayIndex0 day = 0 := by
    rw [hnorm]; rfl
  refine ⟨?_, ?_, ?_, ?_, ?_, ?_, ?_⟩
  · unfold getSeason getSeasonIndex; rw [hnorm]
  · unfold getSeason getSeasonIndex
    rw [hzero]
    simp only [Nat.zero_mod, Nat.zero_div]
    rw [List.get?_eq_getElem?, List.getElem?_eq_getElem (by
      cases hl : cfg.seasons with
      | nil => exact absurd hl hs
      | cons a t => simp [hl])]
    simp
  · unfold getSeasonIndex; rw [hnorm]
  · unfold getDayInSeason; rw [hnorm]
  · unfold getYear; rw [hnorm]
  · unfold getSeasonProgress getDayInSeason; rw [hnorm]
  · unfold getDayOfWeek; rw [hnorm]

/-- C9 witness: the four-season, seven-day calendar of the source's
example, queried at day `-3`, matches day 1 everywhere. -/
theorem calendar_clamps_nonpositive_days_witness :
    getSeason ⟨7, ["Spring", "Summer", "Fall", "Winter"], 0⟩ (-3)
        = getSeason ⟨7, ["Spring", "Summer", "Fall", "Winter"], 0⟩ 1
    ∧ (getSeason ⟨7, ["Spring", "Summer", "Fall", "Winter"], 0⟩ (-3)).isSome = true :=
  ⟨(calendar_clamps_nonpositive_days ⟨7, ["Spring", "Summer", "Fall", "Winter"], 0⟩ (-3)
      (by decide) (by decide) (by decide)).1,
    (calendar_clamps_nonpositive_days ⟨7, ["Spring", "Summer", "Fall", "Winter"], 0⟩ (-3)
      (by decide) (by decide) (by decide)).2.1⟩
